import Mathlib

/-!
Shallow embedding of the motoboto_benchmark consistency-tester core
(`base_customer.py`, `bucket_name_manager.py`, `collection_ops_accounting.py`,
`mock_input_file.py`) together with theorems checking the natural-language
specification against the code.

Conventions:
* Python `dict`s become association lists with dict-style lookup/overwrite
  semantics (at most one binding per key is ever observable).
* Python exceptions become explicit status values (`Except`, `Option`, or a
  dedicated status inductive).
* The shared halt event (`threading.Event`) is modelled as a boolean stream
  `halt : Nat → Bool` read at each poll; a poll counter is threaded through
  the code that polls it.
* Collaborator calls (motoboto / lumberyard HTTP operations) are opaque
  environments: a function from the attempt number to the outcome of that
  attempt (success value, retryable error with a retry-after payload, or a
  `MockInputFileError` fault raised by the fault-injecting mock file).
-/

namespace Motoboto

/-! ### Verification ledger (`BaseCustomer.key_verification`)

The ledger is the Python dict `self.key_verification` mapping
`(bucket_name, key_name, version_id)` to `(expected_size, expected_md5_or_None)`.
-/

/-- Composite verification key `(bucket.name, key.name, key.version_id)`;
an unversioned key has `version_id = none`. -/
abbrev VKey := String × String × Option String

/-- A ledger entry value: expected size and expected md5 digest
(`none` when no end-to-end digest exists, as in multipart archives). -/
abbrev LedgerEntry := Nat × Option String

/-- The shadow map `self.key_verification`, a Python dict modelled as an
association list with at most one binding per key. -/
abbrev Ledger := List (VKey × LedgerEntry)

/-- Dict lookup `self.key_verification[verification_key]`. -/
def ledgerLookup : Ledger → VKey → Option LedgerEntry
  | [], _ => none
  | (k', v) :: t, k => if k' = k then some v else ledgerLookup t k

/-- Dict deletion `del self.key_verification[k]` / the removal performed by
`dict.pop`: every binding for the key disappears (a dict holds at most one). -/
def ledgerEraseKey (led : Ledger) (k : VKey) : Ledger :=
  led.filter (fun p => p.1 ≠ k)

/-- Dict assignment `self.key_verification[k] = v` (overwrites any
previous binding for `k`). -/
def ledgerInsert (led : Ledger) (k : VKey) (v : LedgerEntry) : Ledger :=
  (k, v) :: ledgerEraseKey led k

/-- `BaseCustomer._verify_key` (base_customer.py:145-168): non-destructive
check.  Returns the (unchanged) ledger together with the number of
verification errors added to `self._error_count`: 1 for a missing entry,
else 1 for a size mismatch plus 1 for an md5 mismatch when the expected
digest is not `None`. -/
def verify_key (led : Ledger) (k : VKey) (dataSize : Nat) (md5 : String) :
    Ledger × Nat :=
  match ledgerLookup led k with
  | none => (led, 1)
  | some (expectedSize, expectedMd5) =>
    let sizeErr := if dataSize ≠ expectedSize then 1 else 0
    let md5Err := match expectedMd5 with
      | some d => if md5 ≠ d then 1 else 0
      | none => 0
    (led, sizeErr + md5Err)

/-- `BaseCustomer._verify_key_final` (base_customer.py:170-196): destructive
check used by the end-of-session sweep.  `dict.pop` removes the entry on
lookup; a missing entry adds one error and removes nothing. -/
def verify_key_final (led : Ledger) (k : VKey) (dataSize : Nat) (md5 : String) :
    Ledger × Nat :=
  match ledgerLookup led k with
  | none => (led, 1)
  | some (expectedSize, expectedMd5) =>
    let sizeErr := if dataSize ≠ expectedSize then 1 else 0
    let md5Err := match expectedMd5 with
      | some d => if md5 ≠ d then 1 else 0
      | none => 0
    (ledgerEraseKey led k, sizeErr + md5Err)

/-! ### Weighted action dispatch (`BaseCustomer._dispatch_table`,
`_load_frequency_table`) -/

/-- The closed set of action names of `self._dispatch_table`
(base_customer.py:59-70). -/
inductive Action where
  | create_bucket
  | create_versioned_bucket
  | delete_bucket
  | archive_new_key
  | archive_new_version
  | archive_overwrite
  | retrieve_latest
  | retrieve_version
  | delete_key
  | delete_version
deriving DecidableEq, Repr

/-- `BaseCustomer._load_frequency_table` (base_customer.py:348-358): for each
action of the distribution append `count` slots for it, then
`assert len(table) == 100` (modelled as returning `none` when the assert
fires).  The distribution dict is an association list of
(action, weight). -/
def load_frequency_table (dist : List (Action × Nat)) : Option (List Action) :=
  let table := dist.flatMap (fun p => List.replicate p.2 p.1)
  if table.length = 100 then some table else none

/-! ### Per-bucket accounting (`collection_ops_accounting.py`) -/

/-- The fixed closed set of counter names of the `self._data` dict
(collection_ops_accounting.py:26-43). -/
inductive CounterKey where
  | retrieve_request
  | retrieve_success
  | retrieve_error
  | archive_request
  | archive_success
  | archive_error
  | listmatch_request
  | listmatch_success
  | listmatch_error
  | delete_request
  | delete_success
  | delete_error
  | socket_bytes_in
  | socket_bytes_out
  | success_bytes_in
  | success_bytes_out
  | error_bytes_in
  | error_bytes_out
deriving DecidableEq, Repr

/-- The counter dict `self._data`, one non-negative integer per counter
name. -/
structure OpsData where
  retrieve_request : Nat
  retrieve_success : Nat
  retrieve_error : Nat
  archive_request : Nat
  archive_success : Nat
  archive_error : Nat
  listmatch_request : Nat
  listmatch_success : Nat
  listmatch_error : Nat
  delete_request : Nat
  delete_success : Nat
  delete_error : Nat
  socket_bytes_in : Nat
  socket_bytes_out : Nat
  success_bytes_in : Nat
  success_bytes_out : Nat
  error_bytes_in : Nat
  error_bytes_out : Nat
deriving DecidableEq, Repr

/-- `self._data[key]`. -/
def OpsData.get (d : OpsData) : CounterKey → Nat
  | .retrieve_request => d.retrieve_request
  | .retrieve_success => d.retrieve_success
  | .retrieve_error => d.retrieve_error
  | .archive_request => d.archive_request
  | .archive_success => d.archive_success
  | .archive_error => d.archive_error
  | .listmatch_request => d.listmatch_request
  | .listmatch_success => d.listmatch_success
  | .listmatch_error => d.listmatch_error
  | .delete_request => d.delete_request
  | .delete_success => d.delete_success
  | .delete_error => d.delete_error
  | .socket_bytes_in => d.socket_bytes_in
  | .socket_bytes_out => d.socket_bytes_out
  | .success_bytes_in => d.success_bytes_in
  | .success_bytes_out => d.success_bytes_out
  | .error_bytes_in => d.error_bytes_in
  | .error_bytes_out => d.error_bytes_out

/-- `self._data[key] += value`. -/
def OpsData.incr (d : OpsData) (k : CounterKey) (v : Nat) : OpsData :=
  match k with
  | .retrieve_request => { d with retrieve_request := d.retrieve_request + v }
  | .retrieve_success => { d with retrieve_success := d.retrieve_success + v }
  | .retrieve_error => { d with retrieve_error := d.retrieve_error + v }
  | .archive_request => { d with archive_request := d.archive_request + v }
  | .archive_success => { d with archive_success := d.archive_success + v }
  | .archive_error => { d with archive_error := d.archive_error + v }
  | .listmatch_request => { d with listmatch_request := d.listmatch_request + v }
  | .listmatch_success => { d with listmatch_success := d.listmatch_success + v }
  | .listmatch_error => { d with listmatch_error := d.listmatch_error + v }
  | .delete_request => { d with delete_request := d.delete_request + v }
  | .delete_success => { d with delete_success := d.delete_success + v }
  | .delete_error => { d with delete_error := d.delete_error + v }
  | .socket_bytes_in => { d with socket_bytes_in := d.socket_bytes_in + v }
  | .socket_bytes_out => { d with socket_bytes_out := d.socket_bytes_out + v }
  | .success_bytes_in => { d with success_bytes_in := d.success_bytes_in + v }
  | .success_bytes_out => { d with success_bytes_out := d.success_bytes_out + v }
  | .error_bytes_in => { d with error_bytes_in := d.error_bytes_in + v }
  | .error_bytes_out => { d with error_bytes_out := d.error_bytes_out + v }

/-- All counters zero, as set by `CollectionOpsAccounting.__init__`. -/
def OpsData.zero : OpsData :=
  ⟨0, 0, 0, 0, 0, 0, 0, 0, 0, 0, 0, 0, 0, 0, 0, 0, 0, 0⟩

/-- `CollectionOpsAccounting` (collection_ops_accounting.py:16-50):
counter dict plus a start timestamp and an optional end timestamp.
Timestamps are abstract instants (`Nat`). -/
structure CollectionOpsAccounting where
  startTimestamp : Nat
  data : OpsData
  endTimestamp : Option Nat
deriving DecidableEq, Repr

/-- `CollectionOpsAccounting.__init__` at instant `now`. -/
def CollectionOpsAccounting.init (now : Nat) : CollectionOpsAccounting :=
  ⟨now, OpsData.zero, none⟩

/-- `CollectionOpsAccounting.mark_end` (collection_ops_accounting.py:46-47):
records the end timestamp; nothing else. -/
def CollectionOpsAccounting.mark_end (c : CollectionOpsAccounting)
    (now : Nat) : CollectionOpsAccounting :=
  { c with endTimestamp := some now }

/-- `CollectionOpsAccounting.increment_by` (collection_ops_accounting.py:49-50):
`self._data[key] += value`, with no check of the end timestamp. -/
def CollectionOpsAccounting.increment_by (c : CollectionOpsAccounting)
    (k : CounterKey) (v : Nat) : CollectionOpsAccounting :=
  { c with data := c.data.incr k v }

/-- Counter bump used as the `pre`/`err` action of the retry loops below. -/
def bump (k : CounterKey) (v : Nat) :
    CollectionOpsAccounting → CollectionOpsAccounting :=
  fun c => c.increment_by k v

/-! ### The bounded-retry loop skeleton

Every mutating collaborator call in `base_customer.py` sits in the same
`while not self._halt_event.is_set():` loop: an optional request-counter
bump, the call, `except MockInputFileError` (fault: error bump, return),
`except LumberyardRetryableHTTPError` (error bump, re-raise once
`retry_count` reaches the ceiling, else wait and retry), `else: break`.
-/

/-- Outcome of one attempt of a collaborator call: success with a value,
a classified retryable error carrying its retry-after payload, or a
`MockInputFileError` fault raised by the fault-injecting mock input file
(only the archive calls, which read a `MockInputFile`, can produce it). -/
inductive AttemptResult (α : Type) where
  | ok (a : α)
  | retryable (e : Nat)
  | fault
deriving DecidableEq, Repr

/-- How a retry loop ended: the call succeeded (`break`), the halt event
was observed set (`while` condition false), a fault aborted the enclosing
action, or the retryable error was re-raised after the ceiling. -/
inductive LoopExit (α : Type) where
  | completed (a : α)
  | halted
  | faulted
  | raised (e : Nat)
deriving DecidableEq, Repr

/-- Result of a retry loop: accounting after the loop, the next poll index
of the halt event, the final `retry_count`, and how the loop ended. -/
structure LoopOut (α : Type) where
  acct : CollectionOpsAccounting
  poll : Nat
  retries : Nat
  exit : LoopExit α
deriving Repr

/-- One retry loop of `base_customer.py`, structurally recursive on the
remaining retry budget (`budget = maxRetries - retry_count`, so the
re-raise at `retry_count >= maxRetries` is the `budget = 0` case).
`pre` is the counter bump performed before the call (`<op>_request`, or
nothing for the upload-part and complete-upload loops), `err` the bump
performed in every `except` arm (`<op>_error`).  `op n` is the outcome of
the attempt with `retry_count = n`. -/
def retry_loop_aux {α : Type} (halt : Nat → Bool) (op : Nat → AttemptResult α)
    ( pre err : CollectionOpsAccounting → CollectionOpsAccounting) :
    Nat → Nat → Nat → CollectionOpsAccounting → LoopOut α
  | budget, retryCount, poll, acct =>
    if halt poll then ⟨acct, poll + 1, retryCount, .halted⟩
    else
      let acct1 := pre acct
      match op retryCount with
      | .ok a => ⟨acct1, poll + 1, retryCount, .completed a⟩
      | .fault => ⟨err acct1, poll + 1, retryCount, .faulted⟩
      | .retryable e =>
        let acct2 := err acct1
        match budget with
        | 0 => ⟨acct2, poll + 1, retryCount, .raised e⟩
        | b + 1 =>
          retry_loop_aux halt op pre err b (retryCount + 1) (poll + 1) acct2

/-- A full retry loop starting at `retry_count = 0` with retry ceiling
`maxRetries` (`_max_archive_retries` / `_max_delete_retries`, both 10). -/
def retry_loop {α : Type} (halt : Nat → Bool) (op : Nat → AttemptResult α)
    (maxRetries : Nat)
    ( pre err : CollectionOpsAccounting → CollectionOpsAccounting)
    (poll : Nat) (acct : CollectionOpsAccounting) : LoopOut α :=
  retry_loop_aux halt op pre err maxRetries 0 poll acct

/-- `_max_archive_retries` (base_customer.py:29). -/
def max_archive_retries : Nat := 10

/-- `_max_delete_retries` (base_customer.py:30). -/
def max_delete_retries : Nat := 10

/-! ### Single-shot archive (`BaseCustomer._archive_one_file`) -/

/-- How `_archive_one_file` ended: success (with the version id returned by
the server and the final retry count), early return on the halt event,
early return on an injected fault, or a re-raised retryable error (with
its payload and the final retry count). -/
inductive ArchStatus where
  | completed (ver : Option String) (retries : Nat)
  | halted
  | faulted
  | raised (e : Nat) (retries : Nat)
deriving DecidableEq, Repr

/-- `BaseCustomer._archive_one_file` (base_customer.py:690-737).
`op n` is the outcome of the `set_contents_from_file` call on attempt `n`
(an `ok` carries the `key.version_id` the server assigned); `forceError`
is the fault-injection roll drawn before the loop (a `True` roll makes the
mock input file raise on every attempt); `digest` is the md5 digest of the
synthesized payload.  On success: bump `archive_success` by 1 and
`success_bytes_in` by `size`, then record `(size, digest)` in the ledger
under `(bucket.name, key.name, key.version_id)`. -/
def archive_one_file (halt : Nat → Bool)
    (op : Nat → AttemptResult (Option String)) (forceError : Bool)
    (digest : String) (bucketName keyName : String) (size : Nat)
    (poll : Nat) (acct : CollectionOpsAccounting) (ledger : Ledger) :
    CollectionOpsAccounting × Ledger × ArchStatus :=
  let opF : Nat → AttemptResult (Option String) :=
    fun n => if forceError then .fault else op n
  let r := retry_loop halt opF max_archive_retries
      (bump .archive_request 1) (bump .archive_error 1) poll acct
  match r.exit with
  | .halted => (r.acct, ledger, .halted)
  | .faulted => (r.acct, ledger, .faulted)
  | .raised e => (r.acct, ledger, .raised e r.retries)
  | .completed ver =>
    let vk : VKey := (bucketName, keyName, ver)
    let acct2 := (r.acct.increment_by .archive_success 1).increment_by
        .success_bytes_in size
    (acct2, ledgerInsert ledger vk (size, some digest), .completed ver r.retries)

/-! ### Multipart archive (`BaseCustomer._archive_multipart`) -/

/-- `part_sizes[-1] += size % base_size`: add `r` to the last element,
`none` when the list is empty (Python raises `IndexError`). -/
def addToLast : List Nat → Nat → Option (List Nat)
  | [], _ => none
  | [x], r => some [x + r]
  | x :: y :: t, r => (addToLast (y :: t) r).map (fun l => x :: l)

/-- The chunk partition of `_archive_multipart` (base_customer.py:594-597):
`size / base` chunks of `base` (Python 2 integer division), the remainder
`size % base` added to the last chunk. -/
def partSizes (size base : Nat) : Option (List Nat) :=
  addToLast (List.replicate (size / base) base) (size % base)

/-- How `_archive_multipart` ended: full success (with the multipart upload
transaction id), early return on the halt event, early return on an
injected fault, a re-raised retryable error, or an unhandled exception
(the `IndexError` of an empty chunk list — unreachable under the
`size > 2 * base` dispatch guard of `_archive`). -/
inductive MultiStatus where
  | completed (uid : String)
  | halted
  | faulted
  | raised (e : Nat)
  | crashed
deriving DecidableEq, Repr

/-- The `for i, part_size in enumerate(part_sizes)` loop of
`_archive_multipart` (base_customer.py:631-660).  `fault i` is the
fault-injection roll drawn for part `i`; `upOp i n` the outcome of
`upload_part_from_file` for part `i` on attempt `n`.  The upload loop
bumps no request counter; each `except` arm bumps `archive_error`; after
each part's loop the halt event is polled once more (`if
self._halt_event.is_set(): return`).  Returns `none` when all parts
uploaded, or `some` early-exit status. -/
def upload_parts (halt : Nat → Bool) (fault : Nat → Bool)
    (upOp : Nat → Nat → AttemptResult Unit) :
    List Nat → Nat → Nat → CollectionOpsAccounting →
    CollectionOpsAccounting × Nat × Option MultiStatus
  | [], _, poll, acct => (acct, poll, none)
  | _ :: rest, i, poll, acct =>
    let opF : Nat → AttemptResult Unit :=
      fun n => if fault i then .fault else upOp i n
    let r := retry_loop halt opF max_delete_retries id
        (bump .archive_error 1) poll acct
    match r.exit with
    | .faulted => (r.acct, r.poll, some .faulted)
    | .raised e => (r.acct, r.poll, some (.raised e))
    | .halted => (r.acct, r.poll, some .halted)
    | .completed _ =>
      if halt r.poll then (r.acct, r.poll + 1, some .halted)
      else upload_parts halt fault upOp rest (i + 1) (r.poll + 1) r.acct

/-- `BaseCustomer._archive_multipart` (base_customer.py:592-688).
Chunk the size; initiate the transaction (retried, bumping
`archive_request` per attempt and `archive_error` per failure, ceiling
`_max_delete_retries`); upload each part (each retried independently);
complete the transaction (retried).  On full success: bump
`archive_success` by 1 and record `(size, None)` in the ledger under
`(bucket.name, key_name, multipart_upload.id)`.  Note that, unlike
`_archive_one_file`, no `success_bytes_in` bump occurs anywhere in this
function. -/
def archive_multipart (halt : Nat → Bool)
    (initOp : Nat → AttemptResult String) (fault : Nat → Bool)
    (upOp : Nat → Nat → AttemptResult Unit)
    (compOp : Nat → AttemptResult Unit) (bucketName keyName : String)
    (baseSize size : Nat) (poll : Nat) (acct : CollectionOpsAccounting)
    (ledger : Ledger) : CollectionOpsAccounting × Ledger × MultiStatus :=
  match partSizes size baseSize with
  | none => (acct, ledger, .crashed)
  | some parts =>
    let r1 := retry_loop halt initOp max_delete_retries
        (bump .archive_request 1) (bump .archive_error 1) poll acct
    match r1.exit with
    | .raised e => (r1.acct, ledger, .raised e)
    | .faulted => (r1.acct, ledger, .crashed)
    | .halted => (r1.acct, ledger, .halted)
    | .completed uid =>
      if halt r1.poll then (r1.acct, ledger, .halted)
      else
        match upload_parts halt fault upOp parts 0 (r1.poll + 1) r1.acct with
        | (acct2, _, some st) => (acct2, ledger, st)
        | (acct2, poll2, none) =>
          let r3 := retry_loop halt compOp max_delete_retries id
              (bump .archive_error 1) poll2 acct2
          match r3.exit with
          | .raised e => (r3.acct, ledger, .raised e)
          | .faulted => (r3.acct, ledger, .crashed)
          | .halted => (r3.acct, ledger, .halted)
          | .completed _ =>
            if halt r3.poll then (r3.acct, ledger, .halted)
            else
              let vk : VKey := (bucketName, keyName, some uid)
              let acct4 := r3.acct.increment_by .archive_success 1
              (acct4, ledgerInsert ledger vk (size, none), .completed uid)

/-! ### Key deletion (`BaseCustomer._delete_key`) -/

/-- How the modelled part of `_delete_key` ended. -/
inductive DelStatus where
  | done
  | raised (e : Nat)
  | crashed
deriving DecidableEq, Repr

/-- The ledger sweep at the end of `_delete_key`
(base_customer.py:880-891): remove every version entry held under
`(bucket.name, key.name)`. -/
def ledgerRemoveKey (bucketName keyName : String) (led : Ledger) : Ledger :=
  led.filter (fun p => ¬(p.1.1 = bucketName ∧ p.1.2.1 = keyName))

/-- `BaseCustomer._delete_key` from the retry loop on
(base_customer.py:859-891), after a key has been picked.  `op n` is the
outcome of `key.delete()` on attempt `n` (the delete call reads no mock
input file, so `op` never yields a fault; the `crashed` arm is
unreachable).  The loop bumps `delete_request` per attempt and
`delete_error` per failure, ceiling `_max_delete_retries`.  After the
loop — whether it ended in `break` or because the halt event was set —
`delete_success` is bumped by 1 and every ledger entry for the key is
removed; only a re-raised retryable error skips that. -/
def delete_key (halt : Nat → Bool) (op : Nat → AttemptResult Unit)
    (bucketName keyName : String) (poll : Nat)
    (acct : CollectionOpsAccounting) (ledger : Ledger) :
    CollectionOpsAccounting × Ledger × DelStatus :=
  let r := retry_loop halt op max_delete_retries
      (bump .delete_request 1) (bump .delete_error 1) poll acct
  match r.exit with
  | .raised e => (r.acct, ledger, .raised e)
  | .faulted => (r.acct, ledger, .crashed)
  | _ =>
    let acct2 := r.acct.increment_by .delete_success 1
    (acct2, ledgerRemoveKey bucketName keyName ledger, .done)

/-! ### Bucket name allocation (`bucket_name_manager.py`) -/

/-- Modelled from the spec: the external `lumberyard.http_util`
collaborator helper `compute_reserved_collection_name`, which derives a
reserved collection (bucket) name from the user identity and a suffix
string; names derive from "agent identity + monotonic numeric suffix".
Only its shape (a fixed user-derived stem followed by the suffix)
matters to the allocator. -/
def compute_reserved_collection_name (username sfx : String) : String :=
  "rr-" ++ username ++ "-" ++ sfx

/-- `_bucket_name_template = "%08d"` (bucket_name_manager.py:10): the
suffix number rendered as decimal, left-padded with zeros to 8 digits. -/
def bucket_name_template (n : Nat) : String :=
  let s := toString n
  String.mk (List.replicate (8 - s.length) '0') ++ s

/-- `BucketNameManager` (bucket_name_manager.py:12-21): user-scoped
name stem, configured ceiling on numeric suffixes, highest suffix seen or
issued, and the reuse pool of deleted names (appended on deletion, popped
from the end). -/
structure BucketNameManager where
  username : String
  stem : String
  maxBucketValue : Nat
  highestBucketValue : Nat
  deletedBucketNames : List String
deriving DecidableEq, Repr

/-- `BucketNameManager.__init__` (bucket_name_manager.py:16-21). -/
def BucketNameManager.init (username : String) (maxBucketValue : Nat) :
    BucketNameManager :=
  ⟨username, compute_reserved_collection_name username "", maxBucketValue, 0, []⟩

/-- Python's `str.startswith`, over the character lists of the two
strings. -/
def listIsPre : List Char → List Char → Bool
  | [], _ => true
  | _ :: _, [] => false
  | a :: s, b :: t => a = b && listIsPre s t

/-- The value of a decimal digit character, `none` for a non-digit. -/
def digitVal? (c : Char) : Option Nat :=
  if 48 ≤ c.toNat ∧ c.toNat ≤ 57 then some (c.toNat - 48) else none

def parseNatAux : List Char → Nat → Option Nat
  | [], acc => some acc
  | c :: t, acc =>
    match digitVal? c with
    | none => none
    | some d => parseNatAux t (acc * 10 + d)

/-- Python's `int(s)` restricted to the unsigned decimal strings the
allocator produces ("%08d" renderings): the digits of `s` read in base
10, `none` (a raised `ValueError`) on an empty string or a non-digit
character. -/
def parseNat? (s : List Char) : Option Nat :=
  match s with
  | [] => none
  | _ => parseNatAux s 0

/-- `BucketNameManager.existing_bucket_name` (bucket_name_manager.py:23-32):
if the name starts with the stem, parse the rest (`bucket_name[len(stem):]`)
as an integer (`none` models the `ValueError` of `int()`), `assert` it does
not exceed the ceiling (`none` models the `AssertionError`), and raise the
high-water mark to it. -/
def BucketNameManager.existing_bucket_name (m : BucketNameManager)
    (bucketName : String) : Option BucketNameManager :=
  if listIsPre m.stem.data bucketName.data then
    match parseNat? (bucketName.data.drop m.stem.data.length) with
    | none => none
    | some v =>
      if v ≤ m.maxBucketValue then
        some { m with highestBucketValue := max m.highestBucketValue v }
      else none
  else some m

/-- `BucketNameManager.deleted_bucket_name` (bucket_name_manager.py:34-36):
append to the reuse pool unless already present. -/
def BucketNameManager.deleted_bucket_name (m : BucketNameManager)
    (name : String) : BucketNameManager :=
  if name ∈ m.deletedBucketNames then m
  else { m with deletedBucketNames := m.deletedBucketNames ++ [name] }

/-- `BucketNameManager.next` (bucket_name_manager.py:38-49): below the
ceiling, issue the next sequential name; else pop the most recently
deleted name from the reuse pool (`list.pop()` takes the last element);
else return the `None` sentinel. -/
def BucketNameManager.next (m : BucketNameManager) :
    Option String × BucketNameManager :=
  if m.highestBucketValue < m.maxBucketValue then
    (some (compute_reserved_collection_name m.username
        (bucket_name_template (m.highestBucketValue + 1))),
     { m with highestBucketValue := m.highestBucketValue + 1 })
  else if 0 < m.deletedBucketNames.length then
    (m.deletedBucketNames.getLast?,
     { m with deletedBucketNames := m.deletedBucketNames.dropLast })
  else (none, m)

/-! ### Mock input file (`mock_input_file.py`) -/

/-- The module-level `FAST_DATA_SOURCE`: a looping read over a fixed,
non-empty file, i.e. an infinite byte stream with a current position;
`readBytes amount` returns exactly `amount` bytes and advances the
position. -/
structure FastSource where
  stream : Nat → Nat
  pos : Nat

/-- One `FAST_DATA_SOURCE(amount)` call. -/
def FastSource.readBytes (s : FastSource) (amount : Nat) :
    List Nat × FastSource :=
  ((List.range amount).map (fun i => s.stream (s.pos + i)),
   { s with pos := s.pos + amount })

/-- `MockInputFile` (mock_input_file.py:27-68): total size, the
fault-injection flag, bytes handed out so far, and the bytes fed to the
incremental md5 accumulator so far (`md5_digest` is the MD5 digest of
`md5fed`; MD5 itself is opaque to this model). -/
structure MockInputFile where
  totalSize : Nat
  forceError : Bool
  bytesRead : Nat
  md5fed : List Nat

/-- `MockInputFile.__init__(total_size, force_error)`. -/
def MockInputFile.init (totalSize : Nat) (forceError : Bool) :
    MockInputFile :=
  ⟨totalSize, forceError, 0, []⟩

/-- `MockInputFile.read` (mock_input_file.py:39-61).  `sz = none` models
`read()` with no argument.  Returns the data handed out plus the new file
and source states, or `Except.error ()` for a raised
`MockInputFileError`. -/
def MockInputFile.read (f : MockInputFile) (src : FastSource)
    (sz : Option Nat) : Except Unit (List Nat × MockInputFile × FastSource) :=
  let bytesRemaining := f.totalSize - f.bytesRead
  if bytesRemaining = 0 then .ok ([], f, src)
  else
    let bigRead : Except Unit (List Nat × MockInputFile × FastSource) :=
      if f.forceError then .error ()
      else
        let (data, src1) := src.readBytes bytesRemaining
        .ok (data,
             { f with bytesRead := f.totalSize, md5fed := f.md5fed ++ data },
             src1)
    match sz with
    | none => bigRead
    | some size =>
      if bytesRemaining ≤ size then bigRead
      else
        let f1 := { f with bytesRead := f.bytesRead + size }
        if f1.forceError ∧ f1.totalSize - f1.bytesRead = 0 then .error ()
        else
          let (data, src1) := src.readBytes size
          .ok (data, { f1 with md5fed := f1.md5fed ++ data }, src1)

/-- A sequence of `read` calls against one `MockInputFile`, collecting the
data each call returned; a raised `MockInputFileError` stops the
sequence. -/
def MockInputFile.runReads (f : MockInputFile) (src : FastSource) :
    List (Option Nat) → List (List Nat) × MockInputFile × FastSource
  | [] => ([], f, src)
  | sz :: rest =>
    match f.read src sz with
    | .error _ => ([], f, src)
    | .ok (data, f1, src1) =>
      let (outs, f2, src2) := MockInputFile.runReads f1 src1 rest
      (data :: outs, f2, src2)

/-! ## Theorems -/

/-! ### Ledger lemmas -/

theorem ledgerLookup_insert_self (led : Ledger) (k : VKey) (v : LedgerEntry) :
    ledgerLookup (ledgerInsert led k v) k = some v := by
  simp [ledgerInsert, ledgerLookup]

theorem ledgerLookup_eraseKey_self (led : Ledger) (k : VKey) :
    ledgerLookup (ledgerEraseKey led k) k = none := by
  induction led with
  | nil => rfl
  | cons p t ih =>
    rcases p with ⟨k', v⟩
    by_cases h : k' = k
    · simpa [ledgerEraseKey, h] using ih
    · simpa [ledgerEraseKey, ledgerLookup, h] using ih

/-- C1: after `insert(("b","k",None), 100, "abc")`, a non-destructive check
with observed size 100 and md5 "abc" adds zero errors; a non-destructive
check with observed size 50 and md5 "abc" adds exactly one error; both
leave the ledger (and the entry) unchanged.  A destructive check
(`_verify_key_final`) with any observed values removes the entry, and any
subsequent check of the same key adds exactly one missing-entry error. -/
theorem ledger_check_spec (led : Ledger) (obsSize : Nat) (obsMd : String)
    (obsSize2 : Nat) (obsMd2 : String) :
    verify_key (ledgerInsert led ("b", "k", none) (100, some "abc"))
        ("b", "k", none) 100 "abc" =
      (ledgerInsert led ("b", "k", none) (100, some "abc"), 0) ∧
    verify_key (ledgerInsert led ("b", "k", none) (100, some "abc"))
        ("b", "k", none) 50 "abc" =
      (ledgerInsert led ("b", "k", none) (100, some "abc"), 1) ∧
    ledgerLookup (ledgerInsert led ("b", "k", none) (100, some "abc"))
        ("b", "k", none) = some (100, some "abc") ∧
    ledgerLookup
        (verify_key_final (ledgerInsert led ("b", "k", none) (100, some "abc"))
          ("b", "k", none) obsSize obsMd).1 ("b", "k", none) = none ∧
    verify_key
        (verify_key_final (ledgerInsert led ("b", "k", none) (100, some "abc"))
          ("b", "k", none) obsSize obsMd).1 ("b", "k", none) obsSize2 obsMd2 =
      ((verify_key_final (ledgerInsert led ("b", "k", none) (100, some "abc"))
          ("b", "k", none) obsSize obsMd).1, 1) := by
  have hlook := ledgerLookup_insert_self led ("b", "k", none) (100, some "abc")
  have hfin :
      (verify_key_final (ledgerInsert led ("b", "k", none) (100, some "abc"))
          ("b", "k", none) obsSize obsMd).1 =
        ledgerEraseKey (ledgerInsert led ("b", "k", none) (100, some "abc"))
          ("b", "k", none) := by
    simp [verify_key_final, hlook]
  have hnone :
      ledgerLookup
        (verify_key_final (ledgerInsert led ("b", "k", none) (100, some "abc"))
          ("b", "k", none) obsSize obsMd).1 ("b", "k", none) = none := by
    rw [hfin]; exact ledgerLookup_eraseKey_self _ _
  refine ⟨?_, ?_, hlook, hnone, ?_⟩
  · simp [verify_key, hlook]
  · simp [verify_key, hlook]
  · simp [verify_key, hnone]

/-- Witness for C1 on the empty initial ledger and concrete observed
values. -/
theorem ledger_check_spec_witness :
    verify_key (ledgerInsert [] ("b", "k", none) (100, some "abc"))
        ("b", "k", none) 100 "abc" =
      (ledgerInsert [] ("b", "k", none) (100, some "abc"), 0) ∧
    verify_key (ledgerInsert [] ("b", "k", none) (100, some "abc"))
        ("b", "k", none) 50 "abc" =
      (ledgerInsert [] ("b", "k", none) (100, some "abc"), 1) ∧
    ledgerLookup (ledgerInsert [] ("b", "k", none) (100, some "abc"))
        ("b", "k", none) = some (100, some "abc") ∧
    ledgerLookup
        (verify_key_final (ledgerInsert [] ("b", "k", none) (100, some "abc"))
          ("b", "k", none) 3 "z").1 ("b", "k", none) = none ∧
    verify_key
        (verify_key_final (ledgerInsert [] ("b", "k", none) (100, some "abc"))
          ("b", "k", none) 3 "z").1 ("b", "k", none) 4 "w" =
      ((verify_key_final (ledgerInsert [] ("b", "k", none) (100, some "abc"))
          ("b", "k", none) 3 "z").1, 1) :=
  ledger_check_spec [] 3 "z" 4 "w"

/-! ### Frequency table (C2) -/

theorem count_flatMap_replicate_of_not_mem (a : Action)
    (dist : List (Action × Nat)) (h : a ∉ dist.map Prod.fst) :
    (dist.flatMap (fun p => List.replicate p.2 p.1)).count a = 0 := by
  induction dist with
  | nil => rfl
  | cons p t ih =>
    rcases p with ⟨b, w⟩
    simp only [List.map_cons, List.mem_cons, not_or] at h
    have hba : b ≠ a := fun hba => h.1 hba.symm
    simp [List.flatMap_cons, List.count_append, List.count_replicate,
      hba, ih h.2]

theorem count_flatMap_replicate (a : Action) (w : Nat)
    (dist : List (Action × Nat)) (hnodup : (dist.map Prod.fst).Nodup)
    (hmem : (a, w) ∈ dist) :
    (dist.flatMap (fun p => List.replicate p.2 p.1)).count a = w := by
  induction dist with
  | nil => cases hmem
  | cons p t ih =>
    rcases p with ⟨b, w'⟩
    simp only [List.map_cons, List.nodup_cons] at hnodup
    rcases List.mem_cons.mp hmem with heq | hmemt
    · have hb : a = b := congrArg Prod.fst heq
      have hw : w = w' := congrArg Prod.snd heq
      subst hb; subst hw
      have hnot : a ∉ t.map Prod.fst := hnodup.1
      simp [List.flatMap_cons, List.count_append, List.count_replicate,
        count_flatMap_replicate_of_not_mem a t hnot]
    · have hat : a ∈ t.map Prod.fst :=
        List.mem_map.mpr ⟨(a, w), hmemt, rfl⟩
      have hba : b ≠ a := fun hba => hnodup.1 (hba ▸ hat)
      simp [List.flatMap_cons, List.count_append, List.count_replicate, hba,
        ih hnodup.2 hmemt]

/-- C2: for every distribution over actions of the dispatch table with
non-negative integer weights summing to 100, `_load_frequency_table`
succeeds (its length-100 assert holds) and yields a table in which the
number of slots for action `a` equals the configured weight of `a`. -/
theorem frequency_table_spec (dist : List (Action × Nat))
    (hnodup : (dist.map Prod.fst).Nodup)
    (hsum : (dist.map Prod.snd).sum = 100) :
    ∃ table, load_frequency_table dist = some table ∧
      table.length = 100 ∧
      ∀ a w, (a, w) ∈ dist → table.count a = w := by
  have hlen : (dist.flatMap (fun p => List.replicate p.2 p.1)).length = 100 := by
    rw [List.length_flatMap]
    simp only [Function.comp_def, List.length_replicate]
    exact hsum
  refine ⟨dist.flatMap (fun p => List.replicate p.2 p.1), ?_, hlen, ?_⟩
  · simp [load_frequency_table, hlen]
  · intro a w hmem
    exact count_flatMap_replicate a w dist hnodup hmem

/-- Witness for C2 at a concrete two-action distribution. -/
theorem frequency_table_spec_witness :
    ∃ table,
      load_frequency_table
        [(Action.archive_new_key, 60), (Action.delete_key, 40)] = some table ∧
      table.length = 100 ∧
      ∀ a w, (a, w) ∈ [(Action.archive_new_key, 60), (Action.delete_key, 40)] →
        table.count a = w :=
  frequency_table_spec [(Action.archive_new_key, 60), (Action.delete_key, 40)]
    (by decide) (by decide)

/-! ### Multipart chunk partition (C3) -/

theorem addToLast_replicate (b r : Nat) :
    ∀ n, addToLast (List.replicate (n + 1) b) r =
      some (List.replicate n b ++ [b + r])
  | 0 => rfl
  | n + 1 => by
    have ih := addToLast_replicate b r n
    show (addToLast (b :: List.replicate n b) r).map (fun l => b :: l) =
      some (List.replicate (n + 1) b ++ [b + r])
    rw [show addToLast (b :: List.replicate n b) r =
      some (List.replicate n b ++ [b + r]) from ih]
    rfl

/-- C3: for `partSize ≥ 1` and `size > 2 * partSize`, the multipart chunk
partition succeeds and produces exactly `size / partSize` chunks; every
chunk but the last equals `partSize`; the last chunk equals
`partSize + size % partSize` and lies in `[partSize, 2*partSize)`; and the
chunks sum to `size`. -/
theorem multipart_partition_spec (size partSize : Nat) (hp : 1 ≤ partSize)
    (hs : 2 * partSize < size) :
    ∃ chunks, partSizes size partSize = some chunks ∧
      chunks.length = size / partSize ∧
      (∀ x ∈ chunks.dropLast, x = partSize) ∧
      chunks.getLast? = some (partSize + size % partSize) ∧
      partSize ≤ partSize + size % partSize ∧
      partSize + size % partSize < 2 * partSize ∧
      chunks.sum = size := by
  have hppos : 0 < partSize := hp
  have hk : 2 ≤ size / partSize := by
    rw [Nat.le_div_iff_mul_le hppos]
    omega
  have hk1 : 1 ≤ size / partSize := le_trans (by omega) hk
  have hform : addToLast (List.replicate (size / partSize) partSize)
      (size % partSize) =
      some (List.replicate (size / partSize - 1) partSize ++
        [partSize + size % partSize]) := by
    have h := addToLast_replicate partSize (size % partSize)
      (size / partSize - 1)
    rwa [show size / partSize - 1 + 1 = size / partSize from by omega] at h
  refine ⟨List.replicate (size / partSize - 1) partSize ++
      [partSize + size % partSize], ?_, ?_, ?_, ?_, ?_, ?_, ?_⟩
  · rw [partSizes, hform]
  · rw [List.length_append, List.length_replicate]
    simp only [List.length_singleton]
    omega
  · intro x hx
    rw [List.dropLast_concat] at hx
    exact List.eq_of_mem_replicate hx
  · exact List.getLast?_concat _
  · exact Nat.le_add_right _ _
  · have := Nat.mod_lt size hppos
    omega
  · rw [List.sum_append, List.sum_replicate, smul_eq_mul]
    simp only [List.sum_cons, List.sum_nil, add_zero]
    have hk' : size / partSize - 1 + 1 = size / partSize := by omega
    calc (size / partSize - 1) * partSize + (partSize + size % partSize)
        = ((size / partSize - 1) + 1) * partSize + size % partSize := by ring
      _ = (size / partSize) * partSize + size % partSize := by rw [hk']
      _ = size := by rw [Nat.mul_comm]; exact Nat.div_add_mod size partSize

/-- Witness for C3 at size 2500, part size 1000: chunks `[1000, 1500]`. -/
theorem multipart_partition_spec_witness :
    partSizes 2500 1000 = some [1000, 1500] ∧
    (1 ≤ 1000 ∧ 2 * 1000 < 2500 ∧
     ∃ chunks, partSizes 2500 1000 = some chunks ∧
       chunks.length = 2500 / 1000 ∧
       (∀ x ∈ chunks.dropLast, x = 1000) ∧
       chunks.getLast? = some (1000 + 2500 % 1000) ∧
       1000 ≤ 1000 + 2500 % 1000 ∧
       1000 + 2500 % 1000 < 2 * 1000 ∧
       chunks.sum = 2500) :=
  ⟨by decide,
   by decide, by decide,
   multipart_partition_spec 2500 1000 (by decide) (by decide)⟩

/-! ### Accounting freeze (C5) -/

/-- C5 counterexample: the claim "after markEnd() no subsequent increment
changes the value of any counter" is false — on a fresh tracker,
`mark_end` followed by `increment_by("delete_request", 1)` changes the
counter from 0 to 1 (this is exactly what `_delete_bucket` does: it calls
`mark_end` and then keeps incrementing delete/listmatch counters while
clearing the bucket). -/
theorem mark_end_freeze_counterexample :
    (((CollectionOpsAccounting.init 0).mark_end 5).increment_by
        .delete_request 1).data.delete_request = 1 ∧
    ((CollectionOpsAccounting.init 0).mark_end 5).data.delete_request = 0 :=
  ⟨rfl, rfl⟩

/-- C5 (amended): `mark_end` records the end timestamp and nothing else;
the counters are not frozen — an increment after `mark_end` updates the
counter dict exactly as it would before `mark_end`, adding `v` to the
addressed counter. -/
theorem mark_end_no_freeze (c : CollectionOpsAccounting) (now : Nat)
    (k : CounterKey) (v : Nat) :
    ((c.mark_end now).increment_by k v).data = (c.increment_by k v).data ∧
    (((c.mark_end now).increment_by k v).data).get k = c.data.get k + v ∧
    ((c.mark_end now).increment_by k v).endTimestamp = some now := by
  refine ⟨rfl, ?_, rfl⟩
  show (c.data.incr k v).get k = c.data.get k + v
  cases k <;> rfl

/-- Witness for C5 (amended) on a fresh tracker. -/
theorem mark_end_no_freeze_witness :
    (((CollectionOpsAccounting.init 0).mark_end 5).increment_by
        .archive_request 2).data =
      ((CollectionOpsAccounting.init 0).increment_by .archive_request 2).data ∧
    ((((CollectionOpsAccounting.init 0).mark_end 5).increment_by
        .archive_request 2).data).get .archive_request =
      (CollectionOpsAccounting.init 0).data.get .archive_request + 2 ∧
    (((CollectionOpsAccounting.init 0).mark_end 5).increment_by
        .archive_request 2).endTimestamp = some 5 :=
  mark_end_no_freeze (CollectionOpsAccounting.init 0) 5 .archive_request 2

/-! ### Bucket name allocation (C6, C9) -/

/-- C6 counterexample: the claim "seeded with existing suffixes {1,3,5} and
ceiling 6, successive next() calls return the names with suffixes 2, 4, 6"
is false — the allocator only tracks the highest observed suffix (5), so
the first `next()` returns the suffix-6 name, which is not the suffix-2
name. -/
theorem allocator_gap_counterexample :
    ((((BucketNameManager.init "u" 6).existing_bucket_name
          (compute_reserved_collection_name "u" (bucket_name_template 1))).bind
        (fun m => m.existing_bucket_name
          (compute_reserved_collection_name "u" (bucket_name_template 3)))).bind
      (fun m => m.existing_bucket_name
        (compute_reserved_collection_name "u" (bucket_name_template 5))) =
      some ⟨"u", "rr-u-", 6, 5, []⟩) ∧
    ((⟨"u", "rr-u-", 6, 5, []⟩ : BucketNameManager).next).1 =
      some (compute_reserved_collection_name "u" (bucket_name_template 6)) ∧
    compute_reserved_collection_name "u" (bucket_name_template 6) ≠
      compute_reserved_collection_name "u" (bucket_name_template 2) := by
  refine ⟨?_, ?_, ?_⟩ <;> decide

/-- C6 (amended): seeded with existing suffixes {1,3,5} and ceiling 6, the
allocator's high-water mark is 5, so `next()` returns only the suffix-6
name (suffixes 2 and 4 are never issued); once the ceiling is reached,
`next()` pops the most recently deleted name from the reuse pool; and with
the ceiling reached and the pool empty, `next()` returns the `None`
sentinel. -/
theorem allocator_highwater_spec (d : List String) (x : String) :
    (BucketNameManager.next ⟨"u", "rr-u-", 6, 5, d⟩ =
      (some (compute_reserved_collection_name "u" (bucket_name_template 6)),
       ⟨"u", "rr-u-", 6, 6, d⟩)) ∧
    (BucketNameManager.next ⟨"u", "rr-u-", 6, 6, d ++ [x]⟩ =
      (some x, ⟨"u", "rr-u-", 6, 6, d⟩)) ∧
    (BucketNameManager.next ⟨"u", "rr-u-", 6, 6, ([] : List String)⟩ =
      (none, ⟨"u", "rr-u-", 6, 6, []⟩)) := by
  refine ⟨?_, ?_, rfl⟩
  · simp [BucketNameManager.next]
  · simp [BucketNameManager.next]

/-- Witness for C6 (amended) on a concrete one-element reuse pool. -/
theorem allocator_highwater_spec_witness :
    (BucketNameManager.next ⟨"u", "rr-u-", 6, 5, ["a"]⟩ =
      (some (compute_reserved_collection_name "u" (bucket_name_template 6)),
       ⟨"u", "rr-u-", 6, 6, ["a"]⟩)) ∧
    (BucketNameManager.next ⟨"u", "rr-u-", 6, 6, ["a"] ++ ["b"]⟩ =
      (some "b", ⟨"u", "rr-u-", 6, 6, ["a"]⟩)) ∧
    (BucketNameManager.next ⟨"u", "rr-u-", 6, 6, ([] : List String)⟩ =
      (none, ⟨"u", "rr-u-", 6, 6, []⟩)) :=
  allocator_highwater_spec ["a"] "b"

/-- C9: `deleted_bucket_name` is idempotent — notifying the same deleted
name twice in succession yields the same allocator state as notifying it
once — and it preserves the no-duplicates invariant of the reuse pool. -/
theorem deleted_name_idempotent (m : BucketNameManager) (name : String)
    (h : m.deletedBucketNames.Nodup) :
    (m.deleted_bucket_name name).deleted_bucket_name name =
      m.deleted_bucket_name name ∧
    ((m.deleted_bucket_name name).deletedBucketNames).Nodup := by
  by_cases hmem : name ∈ m.deletedBucketNames
  · constructor
    · simp [BucketNameManager.deleted_bucket_name, hmem]
    · simpa [BucketNameManager.deleted_bucket_name, hmem] using h
  · have hm' : m.deleted_bucket_name name =
        { m with deletedBucketNames := m.deletedBucketNames ++ [name] } := by
      simp [BucketNameManager.deleted_bucket_name, hmem]
    constructor
    · rw [hm']
      simp [BucketNameManager.deleted_bucket_name]
    · rw [hm']
      show (m.deletedBucketNames ++ [name]).Nodup
      rw [List.nodup_append]
      refine ⟨h, List.nodup_singleton name, ?_⟩
      intro a ha hb
      rw [List.mem_singleton] at hb
      exact hmem (hb ▸ ha)

/-- Witness for C9 on a concrete allocator with a one-element pool. -/
theorem deleted_name_idempotent_witness :
    (((BucketNameManager.init "u" 3).deleted_bucket_name "x").deleted_bucket_name
        "x" = (BucketNameManager.init "u" 3).deleted_bucket_name "x") ∧
    ((((BucketNameManager.init "u" 3).deleted_bucket_name
        "x").deletedBucketNames).Nodup) :=
  deleted_name_idempotent (BucketNameManager.init "u" 3) "x" (by decide)

/-! ### Retry policy (C7) -/

theorem retry_loop_aux_all_retryable {α : Type} (halt : Nat → Bool)
    (op : Nat → AttemptResult α) (e : Nat → Nat)
    ( pre err : CollectionOpsAccounting → CollectionOpsAccounting)
    (hh : ∀ n, halt n = false) (hop : ∀ n, op n = .retryable (e n)) :
    ∀ budget retryCount poll acct,
      retry_loop_aux halt op pre err budget retryCount poll acct =
        ⟨(err ∘ pre)^[budget + 1] acct, poll + (budget + 1),
         retryCount + budget, .raised (e (retryCount + budget))⟩ := by
  intro budget
  induction budget with
  | zero =>
    intro rc poll acct
    rw [retry_loop_aux]
    simp [hh, hop]
  | succ b ih =>
    intro rc poll acct
    rw [retry_loop_aux]
    simp only [hh, hop, Bool.false_eq_true, if_false, ite_false]
    rw [ih (rc + 1) (poll + 1) (err (pre acct))]
    have hiter : (err ∘ pre)^[b + 1] (err (pre acct)) =
        (err ∘ pre)^[b + 1 + 1] acct := by
      rw [Function.iterate_succ_apply]
      rfl
    rw [hiter]
    have h1 : poll + 1 + (b + 1) = poll + (b + 1 + 1) := by omega
    have h2 : rc + 1 + b = rc + (b + 1) := by omega
    rw [h1, h2]

theorem retry_loop_aux_step {α : Type} (halt : Nat → Bool)
    (op : Nat → AttemptResult α)
    ( pre err : CollectionOpsAccounting → CollectionOpsAccounting)
    (b rc poll : Nat) (acct : CollectionOpsAccounting) (x : Nat)
    (hp : halt poll = false) (hop : op rc = .retryable x) :
    retry_loop_aux halt op pre err (b + 1) rc poll acct =
      retry_loop_aux halt op pre err b (rc + 1) (poll + 1) (err (pre acct)) := by
  rw [retry_loop_aux]
  simp [hp, hop]

theorem retry_loop_aux_ok {α : Type} (halt : Nat → Bool)
    (op : Nat → AttemptResult α)
    ( pre err : CollectionOpsAccounting → CollectionOpsAccounting)
    (b rc poll : Nat) (acct : CollectionOpsAccounting) (a : α)
    (hp : halt poll = false) (hop : op rc = .ok a) :
    retry_loop_aux halt op pre err b rc poll acct =
      ⟨pre acct, poll + 1, rc, .completed a⟩ := by
  rw [retry_loop_aux]
  simp [hp, hop]

theorem iterate_bump_archive (acct : CollectionOpsAccounting) :
    ∀ n,
      (((bump .archive_error 1 ∘ bump .archive_request 1)^[n])
            acct).data.archive_request = acct.data.archive_request + n ∧
      (((bump .archive_error 1 ∘ bump .archive_request 1)^[n])
            acct).data.archive_error = acct.data.archive_error + n
  | 0 => by simp
  | n + 1 => by
    have ih := iterate_bump_archive acct n
    rw [Function.iterate_succ_apply']
    constructor
    · show (((bump .archive_error 1 ∘ bump .archive_request 1)^[n])
          acct).data.archive_request + 1 = acct.data.archive_request + (n + 1)
      omega
    · show (((bump .archive_error 1 ∘ bump .archive_request 1)^[n])
          acct).data.archive_error + 1 = acct.data.archive_error + (n + 1)
      omega

/-- C7: for the `_archive_one_file` retry loop with ceiling 10 and the halt
event never set: an operation that raises a retryable error on every
invocation is invoked exactly 11 times (`archive_request` grows by 11,
i.e. 10 retries), the error counter grows by 11, the 11th failure is
re-raised unmodified (the raised payload is that of attempt 10, counting
from 0) and the ledger is untouched; an operation that raises a retryable
error exactly twice then succeeds returns the success result with a retry
count of 2. -/
theorem retry_policy_spec (halt : Nat → Bool) (e : Nat → Nat)
    (op1 op2 : Nat → AttemptResult (Option String)) (v : Option String)
    (digest bucketName keyName : String) (size poll : Nat)
    (acct : CollectionOpsAccounting) (ledger : Ledger)
    (hh : ∀ n, halt n = false)
    (h1 : ∀ n, op1 n = .retryable (e n))
    (h20 : op2 0 = .retryable (e 0)) (h21 : op2 1 = .retryable (e 1))
    (h22 : op2 2 = .ok v) :
    ((archive_one_file halt op1 false digest bucketName keyName size poll acct
        ledger).2.2 = .raised (e 10) 10 ∧
     (archive_one_file halt op1 false digest bucketName keyName size poll acct
        ledger).1.data.archive_request = acct.data.archive_request + 11 ∧
     (archive_one_file halt op1 false digest bucketName keyName size poll acct
        ledger).1.data.archive_error = acct.data.archive_error + 11 ∧
     (archive_one_file halt op1 false digest bucketName keyName size poll acct
        ledger).2.1 = ledger) ∧
    (archive_one_file halt op2 false digest bucketName keyName size poll acct
        ledger).2.2 = .completed v 2 := by
  have hloop1 := retry_loop_aux_all_retryable halt
    (fun n => if false then .fault else op1 n) e
    (bump .archive_request 1) (bump .archive_error 1) hh
    (fun n => by simpa using h1 n) 10 0 poll acct
  have hiter := iterate_bump_archive acct 11
  constructor
  · simp only [archive_one_file, retry_loop, max_archive_retries]
    rw [hloop1]
    exact ⟨rfl, hiter.1, hiter.2, rfl⟩
  · simp only [archive_one_file, retry_loop, max_archive_retries]
    rw [show (10 : Nat) = 9 + 1 from rfl,
      retry_loop_aux_step halt
        (fun n => if false = true then AttemptResult.fault else op2 n)
        (bump .archive_request 1)
        (bump .archive_error 1) 9 0 poll acct (e 0) (hh poll) h20]
    rw [show (9 : Nat) = 8 + 1 from rfl,
      retry_loop_aux_step halt
        (fun n => if false = true then AttemptResult.fault else op2 n)
        (bump .archive_request 1)
        (bump .archive_error 1) 8 1 (poll + 1) _ (e 1) (hh (poll + 1)) h21]
    rw [retry_loop_aux_ok halt
        (fun n => if false = true then AttemptResult.fault else op2 n)
        (bump .archive_request 1)
        (bump .archive_error 1) 8 2 (poll + 1 + 1) _ v (hh (poll + 1 + 1))
        h22]

/-- Witness for C7: concrete always-retryable and twice-retryable
operations. -/
theorem retry_policy_spec_witness :
    ((archive_one_file (fun _ => false) (fun _ => .retryable 7) false "d" "b"
        "k" 5 0 (CollectionOpsAccounting.init 0) []).2.2 = .raised 7 10 ∧
     (archive_one_file (fun _ => false) (fun _ => .retryable 7) false "d" "b"
        "k" 5 0 (CollectionOpsAccounting.init 0)
        []).1.data.archive_request =
        (CollectionOpsAccounting.init 0).data.archive_request + 11 ∧
     (archive_one_file (fun _ => false) (fun _ => .retryable 7) false "d" "b"
        "k" 5 0 (CollectionOpsAccounting.init 0) []).1.data.archive_error =
        (CollectionOpsAccounting.init 0).data.archive_error + 11 ∧
     (archive_one_file (fun _ => false) (fun _ => .retryable 7) false "d" "b"
        "k" 5 0 (CollectionOpsAccounting.init 0) []).2.1 = []) ∧
    (archive_one_file (fun _ => false)
        (fun n => match n with
          | 0 => .retryable 7
          | 1 => .retryable 7
          | _ + 2 => .ok (some "v1")) false "d" "b" "k" 5 0
        (CollectionOpsAccounting.init 0) []).2.2 =
      .completed (some "v1") 2 :=
  retry_policy_spec (fun _ => false) (fun _ => 7) (fun _ => .retryable 7)
    (fun n => match n with
      | 0 => .retryable 7
      | 1 => .retryable 7
      | _ + 2 => .ok (some "v1")) (some "v1") "d" "b" "k" 5 0
    (CollectionOpsAccounting.init 0) [] (fun _ => rfl) (fun _ => rfl) rfl rfl
    rfl

/-! ### Multipart accounting (C4) and delete accounting (C8) -/

/-- C4: evaluation of a fully successful multipart archive (size 2500,
part size 1000, every collaborator call succeeds on its first attempt, no
fault injected, halt event never set).  The run completes, inserts exactly
one ledger entry keyed by (bucket, key, upload-transaction id) with
expected size 2500 and a null checksum, and increments `archive_success`
by 1 — but `success_bytes_in` stays 0: `_archive_multipart` never
increments it, although the claim (and `_archive_one_file`, and the
accounting module's own "bytes we SENT to the server" doc) says it should
grow by the archived size. -/
theorem archive_multipart_bytes_in_bug :
    (archive_multipart (fun _ => false) (fun _ => .ok "uid-1")
        (fun _ => false) (fun _ _ => .ok ()) (fun _ => .ok ()) "b" "k" 1000
        2500 0 (CollectionOpsAccounting.init 0) []).2.2 =
      MultiStatus.completed "uid-1" ∧
    (archive_multipart (fun _ => false) (fun _ => .ok "uid-1")
        (fun _ => false) (fun _ _ => .ok ()) (fun _ => .ok ()) "b" "k" 1000
        2500 0 (CollectionOpsAccounting.init 0) []).2.1 =
      [(("b", "k", some "uid-1"), (2500, none))] ∧
    (archive_multipart (fun _ => false) (fun _ => .ok "uid-1")
        (fun _ => false) (fun _ _ => .ok ()) (fun _ => .ok ()) "b" "k" 1000
        2500 0 (CollectionOpsAccounting.init 0)
        []).1.data.archive_success = 1 ∧
    (archive_multipart (fun _ => false) (fun _ => .ok "uid-1")
        (fun _ => false) (fun _ _ => .ok ()) (fun _ => .ok ()) "b" "k" 1000
        2500 0 (CollectionOpsAccounting.init 0)
        []).1.data.success_bytes_in = 0 ∧
    (archive_multipart (fun _ => false) (fun _ => .ok "uid-1")
        (fun _ => false) (fun _ _ => .ok ()) (fun _ => .ok ()) "b" "k" 1000
        2500 0 (CollectionOpsAccounting.init 0)
        []).1.data.archive_request = 1 :=
  ⟨rfl, rfl, rfl, rfl, rfl⟩

/-- C8: evaluation of `_delete_key` with the halt event set when the retry
loop is entered (cancellation signal fired during the action).  The
`key.delete()` call is never attempted — `delete_request` stays 0 — yet
the code falls through to the unconditional post-loop
`increment_by("delete_success", 1)`, so `delete_success` becomes 1,
contradicting the claim that `<op>_success` is only incremented for a
successfully completed call and that each terminal outcome pairs with a
preceding request. -/
theorem delete_key_cancel_bug :
    (delete_key (fun _ => true) (fun _ => .ok ()) "b" "k" 0
        (CollectionOpsAccounting.init 0) []).1.data.delete_success = 1 ∧
    (delete_key (fun _ => true) (fun _ => .ok ()) "b" "k" 0
        (CollectionOpsAccounting.init 0) []).1.data.delete_request = 0 ∧
    (delete_key (fun _ => true) (fun _ => .ok ()) "b" "k" 0
        (CollectionOpsAccounting.init 0) []).2.2 = DelStatus.done :=
  ⟨rfl, rfl, rfl⟩

/-! ### Mock input file (C10) -/

theorem read_exhausted (f : MockInputFile) (src : FastSource)
    (sz : Option Nat) (h : f.bytesRead = f.totalSize) :
    f.read src sz = .ok ([], f, src) := by
  unfold MockInputFile.read
  simp [h]

theorem read_step (f : MockInputFile) (src : FastSource) (sz : Option Nat)
    (hf : f.forceError = false) (hb : f.bytesRead ≤ f.totalSize) :
    ∃ data f1 src1, f.read src sz = .ok (data, f1, src1) ∧
      f1.forceError = false ∧ f1.totalSize = f.totalSize ∧
      f1.md5fed = f.md5fed ++ data ∧
      f1.bytesRead = f.bytesRead + data.length ∧
      f1.bytesRead ≤ f1.totalSize := by
  by_cases h0 : f.totalSize - f.bytesRead = 0
  · refine ⟨[], f, src, ?_, hf, rfl, by simp, by simp, hb⟩
    unfold MockInputFile.read
    simp [h0]
  · cases sz with
    | none =>
      simp only [MockInputFile.read, FastSource.readBytes]
      rw [if_neg h0, hf]
      simp only [Bool.false_eq_true, if_false, ite_false]
      refine ⟨_, _, _, rfl, rfl, rfl, rfl, ?_, ?_⟩
      · show f.totalSize = f.bytesRead +
          ((List.range (f.totalSize - f.bytesRead)).map
            (fun i => src.stream (src.pos + i))).length
        rw [List.length_map, List.length_range]
        omega
      · show f.totalSize ≤ f.totalSize
        exact le_refl _
    | some size =>
      by_cases hsz : f.totalSize - f.bytesRead ≤ size
      · simp only [MockInputFile.read, FastSource.readBytes]
        rw [if_neg h0, if_pos hsz, hf]
        simp only [Bool.false_eq_true, if_false, ite_false]
        refine ⟨_, _, _, rfl, rfl, rfl, rfl, ?_, ?_⟩
        · show f.totalSize = f.bytesRead +
            ((List.range (f.totalSize - f.bytesRead)).map
              (fun i => src.stream (src.pos + i))).length
          rw [List.length_map, List.length_range]
          omega
        · show f.totalSize ≤ f.totalSize
          exact le_refl _
      · simp only [MockInputFile.read, FastSource.readBytes]
        rw [if_neg h0, if_neg hsz]
        simp only [hf, Bool.false_eq_true, false_and, if_false, ite_false]
        refine ⟨_, _, _, rfl, rfl, rfl, rfl, ?_, ?_⟩
        · show f.bytesRead + size = f.bytesRead +
            ((List.range size).map (fun i => src.stream (src.pos + i))).length
          rw [List.length_map, List.length_range]
        · show f.bytesRead + size ≤ f.totalSize
          omega

theorem runReads_spec (calls : List (Option Nat)) :
    ∀ (f : MockInputFile) (src : FastSource), f.forceError = false →
      f.bytesRead ≤ f.totalSize →
      (f.runReads src calls).2.1.forceError = false ∧
      (f.runReads src calls).2.1.totalSize = f.totalSize ∧
      (f.runReads src calls).2.1.bytesRead =
        f.bytesRead + (((f.runReads src calls).1).map List.length).sum ∧
      (f.runReads src calls).2.1.bytesRead ≤ f.totalSize ∧
      (f.runReads src calls).2.1.md5fed =
        f.md5fed ++ ((f.runReads src calls).1).flatten := by
  induction calls with
  | nil =>
    intro f src hf hb
    exact ⟨hf, rfl, by simp [MockInputFile.runReads], hb,
      by simp [MockInputFile.runReads]⟩
  | cons sz rest ih =>
    intro f src hf hb
    obtain ⟨data, f1, src1, hread, hf1, ht1, hm1, hbr1, hle1⟩ :=
      read_step f src sz hf hb
    have hrun : f.runReads src (sz :: rest) =
        ((data :: (f1.runReads src1 rest).1),
         (f1.runReads src1 rest).2.1, (f1.runReads src1 rest).2.2) := by
      simp [MockInputFile.runReads, hread]
    have ihh := ih f1 src1 hf1 hle1
    rw [hrun]
    refine ⟨ihh.1, ?_, ?_, ?_, ?_⟩
    · rw [ihh.2.1, ht1]
    · show (f1.runReads src1 rest).2.1.bytesRead =
        f.bytesRead + (data.length +
          (((f1.runReads src1 rest).1).map List.length).sum)
      rw [ihh.2.2.1, hbr1]
      omega
    · show (f1.runReads src1 rest).2.1.bytesRead ≤ f.totalSize
      rw [← ht1]
      exact ihh.2.2.2.1
    · show (f1.runReads src1 rest).2.1.md5fed =
        f.md5fed ++ (data ++ ((f1.runReads src1 rest).1).flatten)
      rw [ihh.2.2.2.2, hm1, List.append_assoc]

/-- C10: a `MockInputFile` of size `n` with `force_error = False` never
hands out more than `n` bytes across any sequence of reads; the bytes fed
to its md5 accumulator are exactly the concatenation of all bytes handed
out (so `md5_digest` is the MD5 of the returned data); and once `n` bytes
have been handed out, every further read returns the empty string and
changes nothing. -/
theorem mock_input_file_spec (n : Nat) (src : FastSource)
    (calls : List (Option Nat)) :
    ((((MockInputFile.init n false).runReads src calls).1.map
        List.length).sum ≤ n) ∧
    (((MockInputFile.init n false).runReads src calls).2.1.md5fed =
      (((MockInputFile.init n false).runReads src calls).1).flatten) ∧
    (((((MockInputFile.init n false).runReads src calls).1.map
          List.length).sum = n) →
      ∀ (src2 : FastSource) (sz : Option Nat),
        ((MockInputFile.init n false).runReads src calls).2.1.read src2 sz =
          .ok ([], ((MockInputFile.init n false).runReads src calls).2.1,
            src2)) := by
  have h := runReads_spec calls (MockInputFile.init n false) src rfl
    (Nat.zero_le n)
  refine ⟨?_, ?_, ?_⟩
  · have hbr := h.2.2.1
    have hle := h.2.2.2.1
    have e1 : (MockInputFile.init n false).totalSize = n := rfl
    have e2 : (MockInputFile.init n false).bytesRead = 0 := rfl
    omega
  · have h5 := h.2.2.2.2
    rwa [show (MockInputFile.init n false).md5fed = [] from rfl,
      List.nil_append] at h5
  · intro hsum src2 sz
    refine read_exhausted _ src2 sz ?_
    rw [h.2.2.1, h.2.1]
    rw [show (MockInputFile.init n false).bytesRead = 0 from rfl,
      Nat.zero_add, hsum]
    rfl

/-- Witness for C10: size 2, reads of 1 byte then 5 bytes exhaust the
file; a further read returns nothing. -/
theorem mock_input_file_spec_witness :
    ((((MockInputFile.init 2 false).runReads ⟨fun _ => 0, 0⟩
        [some 1, some 5]).1.map List.length).sum ≤ 2) ∧
    ((MockInputFile.init 2 false).runReads ⟨fun _ => 0, 0⟩
        [some 1, some 5]).2.1.read ⟨fun _ => 9, 5⟩ none =
      .ok ([], ((MockInputFile.init 2 false).runReads ⟨fun _ => 0, 0⟩
        [some 1, some 5]).2.1, ⟨fun _ => 9, 5⟩) :=
  ⟨(mock_input_file_spec 2 ⟨fun _ => 0, 0⟩ [some 1, some 5]).1,
   (mock_input_file_spec 2 ⟨fun _ => 0, 0⟩ [some 1, some 5]).2.2 (by rfl)
     ⟨fun _ => 9, 5⟩ none⟩

end Motoboto
